import Mathlib

/-!
Verification of the request-lifecycle orchestrator of the wasm-service crate
(src/src/lib.rs, src/src/response.rs, src/src/request.rs, src/src/context.rs,
src/src/method.rs, src/src/error.rs, src/src/js_values.rs) against its
natural-language specification.

The Rust code is shallowly embedded: structs become structures, &mut-style
builder methods become state-passing functions, fallible operations return
Except, and host (JavaScript) values are modelled by a small inductive type
with the ECMAScript semantics the code relies on (Reflect.get, Map.get,
unchecked casts).  Machine integers in the source (u16 status codes) are
modelled as Nat; no arithmetic in the modelled code can overflow u16 range
in a way any claim depends on.
-/

namespace WasmService

/-! ## String primitives

Lean's built-in `String.toUTF8`, `trim`, `splitOn`, `toLower` do not reduce
inside the kernel, so the handful of string operations the Rust code uses
are modelled here over the character list, with the same semantics:
UTF-8 encoding (Rust `String` is UTF-8 bytes), `str::trim` (strip Unicode
whitespace from both ends), `str::split(char)` (keep empty pieces), and
lowercasing (used by the host Headers object to normalize names). -/

/-- Standard UTF-8 encoding of one scalar value. -/
def utf8Char (c : Char) : List UInt8 :=
  let n := c.toNat
  if n < 0x80 then [UInt8.ofNat n]
  else if n < 0x800 then
    [UInt8.ofNat (0xC0 ||| (n >>> 6)), UInt8.ofNat (0x80 ||| (n &&& 0x3F))]
  else if n < 0x10000 then
    [UInt8.ofNat (0xE0 ||| (n >>> 12)), UInt8.ofNat (0x80 ||| ((n >>> 6) &&& 0x3F)),
     UInt8.ofNat (0x80 ||| (n &&& 0x3F))]
  else
    [UInt8.ofNat (0xF0 ||| (n >>> 18)), UInt8.ofNat (0x80 ||| ((n >>> 12) &&& 0x3F)),
     UInt8.ofNat (0x80 ||| ((n >>> 6) &&& 0x3F)), UInt8.ofNat (0x80 ||| (n &&& 0x3F))]

/-- The UTF-8 bytes of a string (what Rust `String::into_bytes` yields). -/
def utf8Bytes (s : String) : List UInt8 := s.data.flatMap utf8Char

/-- Character-wise lowercasing. -/
def lowerStr (s : String) : String := String.mk (s.data.map Char.toLower)

/-- Rust `str::trim`: remove whitespace from both ends. -/
def trimStr (s : String) : String :=
  String.mk (((s.data.dropWhile Char.isWhitespace).reverse.dropWhile Char.isWhitespace).reverse)

def splitCharAux (c : Char) : List Char → List Char → List String
  | [], acc => [String.mk acc.reverse]
  | x :: xs, acc =>
    if x == c then String.mk acc.reverse :: splitCharAux c xs []
    else splitCharAux c xs (x :: acc)

/-- Rust `str::split(c)`: split at every occurrence of `c`, keeping empty
pieces (so the empty string yields one empty piece). -/
def splitChar (c : Char) (s : String) : List String := splitCharAux c s.data []

/-- Number of characters (Rust byte length agrees on the comparisons the
code makes; see `cookie_value` below). -/
def strLen (s : String) : Nat := s.data.length

def strTake (s : String) (n : Nat) : String := String.mk (s.data.take n)

def strDrop (s : String) (n : Nat) : String := String.mk (s.data.drop n)

/-! ## Error taxonomy (src/src/error.rs)

Payloads that are foreign error types in Rust (serde_json::Error,
reqwest::Error, bincode::ErrorKind) are modelled by their display strings. -/

inductive Error where
  | Json (msg : String)
  | Js (msg : String)
  | Http (msg : String)
  | DeserializeAssets (msg : String)
  | InvalidHeaderValue (v : String)
  | NoStaticAsset (path : String)
  | KVKeyNotFound (path : String) (status : Nat)
  | KVApi (msg : String)
  | Other (msg : String)
deriving DecidableEq

/-- Display for Error is the Rust Debug formatting (error.rs, impl fmt::Display). -/
def Error.display : Error → String
  | .Json m => "Json(" ++ m ++ ")"
  | .Js m => "Js(" ++ m ++ ")"
  | .Http m => "Http(" ++ m ++ ")"
  | .DeserializeAssets m => "DeserializeAssets(" ++ m ++ ")"
  | .InvalidHeaderValue v => "InvalidHeaderValue(" ++ v ++ ")"
  | .NoStaticAsset p => "NoStaticAsset(" ++ p ++ ")"
  | .KVKeyNotFound p s => "KVKeyNotFound(" ++ p ++ ", " ++ toString s ++ ")"
  | .KVApi m => "KVApi(" ++ m ++ ")"
  | .Other m => "Other(" ++ m ++ ")"

/-! ## Response (src/src/response.rs)

The body is a byte buffer (`Bytes` in the source), modelled as `List UInt8`;
`text` stores the UTF-8 encoding of the string, exactly as Rust `String`
bytes.  The header set is a `web_sys::Headers` host object, created lazily on
the first `header` call; it is modelled as an association list with
lowercased names (JS Headers normalize header names to lowercase, and
Headers.set replaces any existing value for the name). -/

structure Response where
  status : Nat
  headers : Option (List (String × String))
  body : List UInt8
  unset : Bool
deriving DecidableEq

/-- `Default for Response` (response.rs): status 200, no headers, empty body,
unset = true. -/
def Response.default : Response :=
  { status := 200, headers := none, body := [], unset := true }

/-- JS `Headers.set`: lowercase the name, replace an existing entry for the
name or append a new one. -/
def headersSet (hs : List (String × String)) (key val : String) : List (String × String) :=
  let k := lowerStr key
  if hs.any (fun kv => kv.1 == k) then
    hs.map (fun kv => if kv.1 == k then (k, val) else kv)
  else
    hs ++ [(k, val)]

/-- `Response::status` (response.rs line 30): sets status and clears unset.
(Primed name: `status` is taken by the structure field.) -/
def Response.status' (r : Response) (status : Nat) : Response :=
  { r with status := status, unset := false }

/-- `Response::body` (response.rs line 37): sets body bytes and clears unset.
(Primed name: `body` is taken by the structure field.) -/
def Response.body' (r : Response) (body : List UInt8) : Response :=
  { r with body := body, unset := false }

/-- `Response::text` (response.rs line 53): sets the body to the UTF-8 bytes
of the string and clears unset. -/
def Response.text (r : Response) (t : String) : Response :=
  { r with body := utf8Bytes t, unset := false }

/-- `Response::header` (response.rs line 61): lazily creates the header set,
then calls the host `Headers.set`, which can fail for values the host
rejects; that host-side outcome is the `ok` argument (the set itself is
external).  On failure the header set stays created but the entry is not
added, and the error is returned; `unset` is never touched. -/
def Response.header (r : Response) (key val : String) (ok : Bool) :
    Response × Except Error Unit :=
  let hs := r.headers.getD []
  if ok then
    ({ r with headers := some (headersSet hs key val) }, Except.ok ())
  else
    ({ r with headers := some hs }, Except.error (Error.Js "invalid header value"))

/-- `Response::content_type` (response.rs line 76): `header("content-type", v)`
(reqwest's CONTENT_TYPE name is the lowercase constant). -/
def Response.content_type (r : Response) (ctype : String) (ok : Bool) :
    Response × Except Error Unit :=
  r.header "content-type" ctype ok

/-- `Response::json` (response.rs line 44): serialization happens in the
external serde_json; its outcome is the `ser` argument (`none` = failure).
On success: body := serialized bytes, content-type := application/json
(unwrapped: this constant is always accepted), unset := false.  On failure
the `?` returns before any mutation. -/
def Response.json (r : Response) (ser : Option (List UInt8)) :
    Response × Except Error Unit :=
  match ser with
  | none => (r, Except.error (Error.Json "serialization failed"))
  | some bytes =>
    let r := { r with body := bytes }
    let r := (r.content_type "application/json" true).1
    ({ r with unset := false }, Except.ok ())

/-- `Response::get_status` (response.rs line 82). -/
def Response.get_status (r : Response) : Nat := r.status

/-- `Response::get_body` (response.rs line 87). -/
def Response.get_body (r : Response) : List UInt8 := r.body

/-- `Response::is_empty` (response.rs line 97). -/
def Response.is_empty (r : Response) : Bool := r.body.isEmpty

/-- `Response::is_unset` (response.rs line 132). -/
def Response.is_unset (r : Response) : Bool := r.unset

/-! ### Builder-call sequences

A handler interacts with the Response through the builder calls above.  A
sequence of such calls is reified so properties can be stated over all
sequences; `applyOp` dispatches each call to the source-modelled function,
discarding the Result exactly as a caller that ignores it would (the &mut
receiver keeps the mutations that happened before a failure). -/

inductive BuildOp where
  | statusOp (s : Nat)
  | bodyOp (b : List UInt8)
  | textOp (t : String)
  | jsonOp (ser : Option (List UInt8))
  | headerOp (k v : String) (ok : Bool)
  | contentTypeOp (v : String) (ok : Bool)
deriving DecidableEq

def applyOp (r : Response) : BuildOp → Response
  | .statusOp s => r.status' s
  | .bodyOp b => r.body' b
  | .textOp t => r.text t
  | .jsonOp ser => (r.json ser).1
  | .headerOp k v ok => (r.header k v ok).1
  | .contentTypeOp v ok => (r.content_type v ok).1

def applyOps : List BuildOp → Response → Response
  | [], r => r
  | op :: ops, r => applyOps ops (applyOp r op)

/-- The op is a `header()` or `content_type()` call. -/
def BuildOp.isHeaderOnly : BuildOp → Bool
  | .headerOp _ _ _ => true
  | .contentTypeOp _ _ => true
  | _ => false

/-- The op is one of `status()`, `body()`, `text()`, or a successful
`json()`. -/
def BuildOp.isSetter : BuildOp → Bool
  | .statusOp _ => true
  | .bodyOp _ => true
  | .textOp _ => true
  | .jsonOp (some _) => true
  | _ => false

/-! ## Method (src/src/method.rs) -/

inductive Method where
  | GET | POST | PUT | DELETE | HEAD | OPTIONS
deriving DecidableEq

/-- Display impl for Method (method.rs line 37). -/
def Method.toStr : Method → String
  | .GET => "GET"
  | .POST => "POST"
  | .PUT => "PUT"
  | .DELETE => "DELETE"
  | .HEAD => "HEAD"
  | .OPTIONS => "OPTIONS"

/-! ## Host (JavaScript) values

The host hands the orchestrator a keyed map of JsValues (see §6 of the
spec).  The inductive below models exactly the value shapes the code
distinguishes; `obj`/`func`/`headersVal`/`bytesVal`/`mapVal`/`promiseVal`
are JS objects, `undef`/`str`/`num` cover the primitives the code can meet. -/

inductive JsValue where
  | undef
  | str (s : String)
  | num (n : Int)
  | obj (fields : List (String × JsValue))
  | func (fields : List (String × JsValue))
  | bytesVal (data : List UInt8)
  | headersVal (hs : List (String × String))
  | mapVal (entries : List (String × JsValue))
  | promiseVal

/-- JS `Map.get`: the entry's value, or undefined when the key is absent. -/
def jsMapGet (entries : List (String × JsValue)) (key : String) : JsValue :=
  match entries.lookup key with
  | some v => v
  | none => JsValue.undef

/-- ECMAScript `Reflect.get(target, key)`: throws TypeError when the target
is not an object; on an object, returns the property value or undefined
when the property is absent.  (This is the semantics the orchestrator's
waitUntil extraction relies on.) -/
def reflectGet (target : JsValue) (key : String) : Except JsValue JsValue :=
  match target with
  | .obj fields => Except.ok (jsMapGet fields key)
  | .func fields => Except.ok (jsMapGet fields key)
  | .bytesVal _ => Except.ok JsValue.undef
  | .headersVal _ => Except.ok JsValue.undef
  | .mapVal _ => Except.ok JsValue.undef
  | .promiseVal => Except.ok JsValue.undef
  | .undef => Except.error (JsValue.str "TypeError: Reflect.get called on non-object")
  | .str _ => Except.error (JsValue.str "TypeError: Reflect.get called on non-object")
  | .num _ => Except.error (JsValue.str "TypeError: Reflect.get called on non-object")

/-- `Function::call1` on a JsValue obtained by the unchecked `Function::from`
cast: calling a non-function throws (caught and returned as Err by the
binding); an actual function call succeeds (the host's waitUntil returns
undefined). -/
def jsCall (f : JsValue) (_this _arg : JsValue) : Except JsValue JsValue :=
  match f with
  | .func _ => Except.ok JsValue.undef
  | _ => Except.error (JsValue.str "TypeError: not a function")

/-- `Method::from` (method.rs line 24): exact uppercase or all-lowercase
forms; anything else is an error JsValue. -/
def Method.fromStr (s : String) : Except JsValue Method :=
  if s == "GET" || s == "get" then Except.ok Method.GET
  else if s == "POST" || s == "post" then Except.ok Method.POST
  else if s == "PUT" || s == "put" then Except.ok Method.PUT
  else if s == "DELETE" || s == "delete" then Except.ok Method.DELETE
  else if s == "HEAD" || s == "head" then Except.ok Method.HEAD
  else if s == "OPTIONS" || s == "options" then Except.ok Method.OPTIONS
  else Except.error (JsValue.str "Unsupported http method")

/-! ## Url

URL parsing is performed by the external `url` crate (out of scope per §1 of
the spec); the orchestrator only needs parse success/failure and carries the
parsed value opaquely, so `Url` keeps the raw string and the parser is a
parameter wherever it is consumed. -/

structure Url where
  raw : String
deriving DecidableEq

/-! ## Request (src/src/request.rs)

The header store is a host `web_sys::Headers`: names are matched
case-insensitively (the host normalizes names to lowercase). -/

structure Request where
  method : Method
  url : Url
  headers : List (String × String)
  body : Option (List UInt8)
deriving DecidableEq

/-- `Request::get_header` (request.rs line 69): case-insensitive host lookup;
absence (and host failure) is None. -/
def Request.get_header (req : Request) (name : String) : Option String :=
  match req.headers.find? (fun kv => lowerStr kv.1 == lowerStr name) with
  | some kv => some kv.2
  | none => none

/-- `Request::has_header` (request.rs line 77). -/
def Request.has_header (req : Request) (name : String) : Bool :=
  (req.get_header name).isSome

/-- `cookie_value` (request.rs line 120): if `part` is of the form
`name=value`, return the value.  The Rust function compares a byte-length
split; on well-formed UTF-8 that is extensionally the character split used
here (equality with `name` forces the split to fall on the same boundary). -/
def cookie_value (part name : String) : Option String :=
  if strLen part > strLen name then
    let left := strTake part (strLen name)
    let right := strDrop part (strLen name)
    if left == name && (match right.data with | '=' :: _ => true | _ => false) then
      some (strDrop right 1)
    else none
  else none

/-- `Request::get_cookie_value` (request.rs line 96): split the `cookie`
header on ';', trim each piece, return the first `name=value` match.  The
final `.map(to_string)` is the identity here; the outer
`Option.unwrap_or_default` flattens the nested Option. -/
def Request.get_cookie_value (req : Request) (cookie_name : String) : Option String :=
  match (req.get_header "cookie").map (fun cookie =>
      ((splitChar ';' cookie).map trimStr).findSome?
        (fun part => cookie_value part cookie_name)) with
  | some v => v
  | none => none

/- `Request::get_query_value` (request.rs line 111) needs the external url
crate's query_pairs; it is not consumed by any claim and is omitted. -/

/-! ## Logging (external service_logging crate)

The logger crate is an external collaborator; entries are modelled as a
severity plus the key/value fields that the `log!` macro assembles, and the
queue as a list.  The logger sink itself is a success/failure oracle
(`String → List LogEntry → Bool`): its only observable behavior inside the
core is whether `send` succeeded. -/

inductive Severity where
  | Verbose | Info | Warn | Error
deriving DecidableEq

structure LogEntry where
  severity : Severity
  fields : List (String × String)
deriving DecidableEq

/-- A deferred task (a `Runnable`): its `run` can only append log entries to
the shared queue it is given (the `RunContext` exposes nothing else), so in
a deterministic model a task is the list of entries it appends. -/
structure Task where
  logs : List LogEntry
deriving DecidableEq

/-! ## HandlerReturn (src/src/lib.rs lines 82-105) -/

structure HandlerReturn where
  status : Nat
  text : String
deriving DecidableEq

/-- `handler_return` (lib.rs line 91). -/
def handler_return (status : Nat) (text : String) : HandlerReturn :=
  { status := status, text := text }

/-- `Default for HandlerReturn` (lib.rs line 98). -/
def HandlerReturn.default : HandlerReturn := { status := 200, text := "" }

/-! ## Context

The `Context` as consumed by src/src/lib.rs: it owns the Response builder,
the log queue, the deferred-task list, and an optional default content type
(src/src/context.rs).  The internal-error marker and its two accessors are
used by lib.rs (lines 188, 223) and assets.rs but their declaration is not
in the packaged src/src/context.rs (an older variant that also still stores
the request); that marker is Modelled from the spec: §4.3 — "
`raise_internal_error(e)` — sets the internal-error marker to `e`;
`is_internal_error()` — inspects the marker", a one-shot Option that starts
empty. -/

structure Context where
  response : Response
  log_queue : List LogEntry
  deferred : List Task
  default_content_type : Option String
  internal_error : Option Error
deriving DecidableEq

/-- `Context::default()` as used by lib.rs line 185: empty context around a
default (unset) Response. -/
def Context.default : Context :=
  { response := Response.default, log_queue := [], deferred := [],
    default_content_type := none, internal_error := none }

/-- `Context::defer` (context.rs line 60). -/
def Context.defer (ctx : Context) (task : Task) : Context :=
  { ctx with deferred := ctx.deferred ++ [task] }

/-- `Context::log` / `AppendsLog` (context.rs line 91). -/
def Context.log (ctx : Context) (e : LogEntry) : Context :=
  { ctx with log_queue := ctx.log_queue ++ [e] }

/-- Modelled from the spec: `raise_internal_error(e)` sets the
internal-error marker to `e` (spec §4.3; declaration missing from the
packaged context.rs, used by lib.rs and assets.rs). -/
def Context.raise_internal_error (ctx : Context) (e : Error) : Context :=
  { ctx with internal_error := some e }

/-- Modelled from the spec: `is_internal_error()` inspects the marker
(spec §4.3). -/
def Context.is_internal_error (ctx : Context) : Option Error :=
  ctx.internal_error

/-- `Context::take_logs` (context.rs line 74): drain the queue. -/
def Context.take_logs (ctx : Context) : List LogEntry × Context :=
  (ctx.log_queue, { ctx with log_queue := [] })

/-- `Context::take_tasks` (context.rs line 79): drain the deferred list. -/
def Context.take_tasks (ctx : Context) : List Task × Context :=
  (ctx.deferred, { ctx with deferred := [] })

/-- `Context::take_response` (context.rs line 84): take the response,
replacing it with the default. -/
def Context.take_response (ctx : Context) : Response × Context :=
  (ctx.response, { ctx with response := Response.default })

/-! ## Handler chain (src/src/lib.rs lines 185-206)

A handler is arbitrary application code over `(&Request, &mut Context)`
returning `Result<(), HandlerReturn>`; with the request fixed it is a
function from the context to the new context and the returned value
(`none` = Ok, `some hr` = Err hr). -/

def Handler : Type := Context → Context × Option HandlerReturn

/-- Everything the orchestrator's loop (lib.rs lines 186-197) produces:
the context and `handler_result` at loop exit, plus two observables
recording the control flow — how many handlers' `handle` ran (the loop
visits them strictly in list order, so these are exactly the first
`invoked` ones), and how many times the configured internal-error handler
ran. -/
structure ChainOut where
  ctx : Context
  result : Option HandlerReturn
  invoked : Nat
  iehCalls : Nat
deriving DecidableEq

/-- The `for handler in config.handlers` loop of lib.rs lines 187-197, with
`handler_result` threaded as in the source (initialized to Ok at line 186):

1. at the top of each iteration, if the internal-error marker is set, the
   internal-error handler is invoked and the loop breaks;
2. otherwise the handler's `handle` runs;
3. if it returned Err, or the response is no longer unset, the loop breaks;
4. otherwise iteration continues with the handler's result (Ok). -/
def chainLoop (ieh : Context → Context) :
    List Handler → Context → Option HandlerReturn → ChainOut
  | [], ctx, res => { ctx := ctx, result := res, invoked := 0, iehCalls := 0 }
  | h :: rest, ctx, res =>
    if (ctx.is_internal_error).isSome then
      { ctx := ieh ctx, result := res, invoked := 0, iehCalls := 1 }
    else
      let out := h ctx
      if out.2.isSome || !out.1.response.is_unset then
        { ctx := out.1, result := out.2, invoked := 1, iehCalls := 0 }
      else
        let tail := chainLoop ieh rest out.1 out.2
        { tail with invoked := tail.invoked + 1 }

/-- Response finalization after the loop (lib.rs lines 198-206): a recorded
HandlerReturn overwrites the response with `status(hr.status).text(hr.text)`;
otherwise a still-unset response becomes `404 "Not Found"`. -/
def finalizeResponse (ctx : Context) (res : Option HandlerReturn) : Context :=
  match res with
  | some hr => { ctx with response := (ctx.response.status' hr.status).text hr.text }
  | none =>
    if ctx.response.is_unset then
      { ctx with response := (ctx.response.status' 404).text "Not Found" }
    else ctx

/-! ### Sequential (no-break) semantics used to state the chain claims -/

/-- Run handlers one after another, ignoring break conditions: the context
each handler would see if all of its predecessors ran. -/
def applySeq : List Handler → Context → Context
  | [], ctx => ctx
  | h :: rest, ctx => applySeq rest (h ctx).1

/-- The handler neither returns Err, nor answers, nor leaves the
internal-error marker set, when run in the given context. -/
def passes (h : Handler) (ctx : Context) : Bool :=
  (h ctx).2.isNone && (h ctx).1.response.is_unset && (h ctx).1.internal_error.isNone

/-- Every handler of the list passes, each run in the context produced by
its predecessors. -/
def passesAll : List Handler → Context → Prop
  | [], _ => True
  | h :: rest, ctx => passes h ctx = true ∧ passesAll rest (h ctx).1

/-- The handler answers (glossary): it returns `Err(HandlerReturn)` or
leaves the response with `is_unset()` false. -/
def answers (h : Handler) (ctx : Context) : Bool :=
  (h ctx).2.isSome || !(h ctx).1.response.is_unset

/-! ## Marshalling the response (src/src/response.rs lines 104-124) -/

/-- `Response::into_js`: a JS map with the status as a number, the body
bytes (empty array when no body), and the header object — the response's
own if one was created, else a freshly created empty Headers. -/
def Response.into_js (r : Response) : JsValue :=
  JsValue.mapVal
    [("status", JsValue.num (Int.ofNat r.status)),
     ("body", JsValue.bytesVal r.body),
     ("headers", JsValue.headersVal (r.headers.getD []))]

/-! ## js_values helpers (src/src/js_values.rs) -/

/-- `get_map_str`: the map entry if it is defined and a string. -/
def get_map_str (m : List (String × JsValue)) (key : String) : Option String :=
  match jsMapGet m key with
  | .str s => some s
  | _ => none

/-- `get_map_bytes`: None when undefined; a typed byte array yields its
bytes; any other defined value goes through an unchecked `Uint8Array::from`
cast, whose `to_vec` on a non-array is modelled as empty. -/
def get_map_bytes (m : List (String × JsValue)) (key : String) : Option (List UInt8) :=
  match jsMapGet m key with
  | .undef => none
  | .bytesVal b => some b
  | _ => some []

/-- `get_map_headers`: None when undefined; a Headers object yields its
entries; any other defined value is an unchecked `Headers::from` cast,
modelled as empty. -/
def get_map_headers (m : List (String × JsValue)) (key : String) :
    Option (List (String × String)) :=
  match jsMapGet m key with
  | .undef => none
  | .headersVal hs => some hs
  | _ => some []

/-- `Request::from_js` (request.rs line 35): read method, url, headers and
optional body from the host map; each missing or invalid required field is
an early error.  `parseUrl` is the external url crate's `Url::parse`. -/
def Request.from_js (parseUrl : String → Option Url) (m : List (String × JsValue)) :
    Except JsValue Request :=
  match get_map_str m "method" with
  | none => Except.error (JsValue.str "invalid_req.method")
  | some mstr =>
    match Method.fromStr mstr with
    | Except.error e => Except.error e
    | Except.ok method =>
      match get_map_str m "url" with
      | none => Except.error (JsValue.str "invalid_req.url")
      | some ustr =>
        match parseUrl ustr with
        | none => Except.error (JsValue.str "invalid req.url:parse error")
        | some url =>
          match get_map_headers m "headers" with
          | none => Except.error (JsValue.str "invalid_req")
          | some headers =>
            Except.ok { method := method, url := url, headers := headers,
                        body := get_map_bytes m "body" }

/-! ## ServiceConfig and the internal-error default (src/src/lib.rs) -/

/-- `ServiceConfig` (lib.rs line 143): the logger sink is the external
send operation, observable only through success/failure per
`(stream, entries)`. -/
structure ServiceConfig where
  logger : String → List LogEntry → Bool
  handlers : List (Request → Context → Context × Option HandlerReturn)
  internal_error_handler : Request → Context → Context

/-- `default_internal_error_handler` (lib.rs line 222): log an Error-severity
entry with the url and the error's display (or "none"), then set the
response to status 200, content-type text/plain; charset=utf-8, and the
fixed apology text. -/
def default_internal_error_handler (req : Request) (ctx : Context) : Context :=
  let error := ctx.is_internal_error
  let entry : LogEntry :=
    { severity := Severity.Error,
      fields := [("_", "InternalError"), ("url", req.url.raw),
                 ("error", match error with
                           | some e => e.display
                           | none => "none")] }
  let ctx := ctx.log entry
  { ctx with response :=
      (((ctx.response.status' 200).content_type "text/plain; charset=utf-8" true).1.text
        "Sorry, an internal error has occurred. It has been logged.") }

/-- `Default for ServiceConfig` (lib.rs line 156): silent logger (send always
succeeds doing nothing), no handlers, default internal-error handler. -/
def ServiceConfig.default : ServiceConfig :=
  { logger := fun _ _ => true, handlers := [],
    internal_error_handler := default_internal_error_handler }

/-! ## Deferred runner (src/src/lib.rs lines 232-255)

Execution is single-threaded cooperative, so the runner is a sequential
program; its observable behavior is the ordered trace of events it
performs.  The Mutex around the fresh LogQueue exists only for type-system
obligations (spec §5) and is modelled away; the queue is threaded through
the tasks. -/

structure DeferredData where
  tasks : List Task
  logs : List LogEntry
deriving DecidableEq

inductive Event where
  /-- an awaited `logger.send(stream, entries)` call -/
  | send (stream : String) (entries : List LogEntry)
  /-- the console fallback after a failed send (`log_log_error`) -/
  | consoleError
  /-- the awaited `run` of the task at this position of the task list -/
  | runTask (idx : Nat)
deriving DecidableEq

/-- A send attempt and, when the sink reports failure, the console
breadcrumb; the failure never propagates. -/
def sendEvents (ok : Bool) (stream : String) (entries : List LogEntry) : List Event :=
  Event.send stream entries :: (if ok then [] else [Event.consoleError])

/-- The `for t in args.tasks` loop: run each task in order, appending its
logs to the shared queue; yields the event trace and the final queue. -/
def runTasks : List Task → Nat → List LogEntry → List Event × List LogEntry
  | [], _, queue => ([], queue)
  | t :: rest, idx, queue =>
    let queue := queue ++ t.logs
    let tail := runTasks rest (idx + 1) queue
    (Event.runTask idx :: tail.1, tail.2)

/-- The concatenation of the log entries the tasks append, in task order
(used to state what the final queue holds). -/
def allTaskLogs : List Task → List LogEntry
  | [] => []
  | t :: rest => t.logs ++ allTaskLogs rest

/-- `deferred_promise` (lib.rs line 235): send the handler-time logs to the
logger under stream "http"; run each deferred task in order against a fresh
shared log queue; send whatever that queue accumulated, again under "http".
The value of the whole future is void; its observable behavior is the
trace. -/
def deferred_promise (logger : String → List LogEntry → Bool) (args : DeferredData) :
    List Event :=
  sendEvents (logger "http" args.logs) "http" args.logs
    ++ (let ran := runTasks args.tasks 0 []
        ran.1 ++ sendEvents (logger "http" ran.2) "http" ran.2)

/-! ## Service orchestrator (src/src/lib.rs lines 176-218) -/

/-- `check_defined` (lib.rs line 258). -/
def check_defined (v : JsValue) (msg : String) : Except JsValue JsValue :=
  match v with
  | .undef => Except.error (JsValue.str msg)
  | v => Except.ok v

/-- The Verbose service-trace entry of lib.rs line 208. -/
def serviceLogEntry (req : Request) (status : Nat) : LogEntry :=
  { severity := Severity.Verbose,
    fields := [("_", "service"), ("method", req.method.toStr),
               ("url", req.url.raw), ("status", toString status)] }

/-- `service_request` (lib.rs line 176).  `js_sys::Map::from(req)` is an
unchecked cast (a non-map input yields an object with no usable entries,
modelled empty).  The event sub-value is read with `check_defined`; its
`waitUntil` property is fetched with `Reflect::get`, whose failure — and
only whose failure — maps to the "event without waitUntil" error;
`Function::from` is an unchecked cast.  Then the chain runs from a default
Context, the response is finalized and taken, the service-trace entry is
logged, the deferred bundle is wrapped into a promise, the `waitUntil` call
result is ignored, and the marshalled response is returned. -/
def service_request (parseUrl : String → Option Url) (req : JsValue)
    (config : ServiceConfig) : Except JsValue JsValue :=
  let m := match req with
    | .mapVal entries => entries
    | _ => []
  match Request.from_js parseUrl m with
  | Except.error e => Except.error e
  | Except.ok req =>
    match check_defined (jsMapGet m "event") "missing event" with
    | Except.error e => Except.error e
    | Except.ok js_event =>
      match (reflectGet js_event "waitUntil").mapError
          (fun _ => JsValue.str "event without waitUntil") with
      | Except.error e => Except.error e
      | Except.ok wait_func =>
        let ctx := Context.default
        let out := chainLoop (config.internal_error_handler req)
          (config.handlers.map (fun h => h req)) ctx none
        let fctx := finalizeResponse out.ctx out.result
        let taken := fctx.take_response
        let response := taken.1
        let ctx := (taken.2).log (serviceLogEntry req response.get_status)
        let tasks := ctx.take_tasks
        let logs := (tasks.2).take_logs
        let dd : DeferredData := { tasks := tasks.1, logs := logs.1 }
        let _trace := deferred_promise config.logger dd
        let _ := jsCall wait_func js_event JsValue.promiseVal
        Except.ok response.into_js

/-! ## Concrete instances used by witnesses and counterexamples -/

/-- A handler that answers with `response().text("OK")` and returns Ok. -/
def hText : Handler := fun ctx => ({ ctx with response := ctx.response.text "OK" }, none)

/-- A handler that declines: returns Ok without touching anything. -/
def hPass : Handler := fun ctx => (ctx, none)

/-- A handler that halts with a canned page: `Err(HandlerReturn(500, ...))`. -/
def hErr : Handler := fun ctx => (ctx, some (handler_return 500 "<html>err</html>"))

/-- A handler that calls `raise_internal_error(Error::Other("db down"))` and
returns Ok, leaving the response unset. -/
def hRaise : Handler :=
  fun ctx => (ctx.raise_internal_error (Error.Other "db down"), none)

/-- A handler that raises an internal error and also answers (sets the
response) before returning Ok. -/
def hRaiseAnswer : Handler :=
  fun ctx =>
    ({ (ctx.raise_internal_error (Error.Other "db down")) with
        response := ctx.response.text "done" }, none)

/-- A handler that sets a header on the response and then halts with a
canned page. -/
def hHeaderErr : Handler := fun ctx =>
  ({ ctx with response := (ctx.response.header "X-Id" "7" true).1 },
   some (handler_return 500 "<html>err</html>"))

/-- A concrete GET request with a single cookie pair. -/
def reqCookie1 : Request :=
  { method := Method.GET, url := { raw := "https://example.com/" },
    headers := [("Cookie", "foo=bar")], body := none }

/-- The same request with an empty cookie value. -/
def reqCookie2 : Request :=
  { method := Method.GET, url := { raw := "https://example.com/" },
    headers := [("Cookie", "foo=")], body := none }

/-- The same request with three cookie pairs and surrounding whitespace. -/
def reqCookie3 : Request :=
  { method := Method.GET, url := { raw := "https://example.com/" },
    headers := [("Cookie", "foo=bar ; color=green ; bar=baz")], body := none }

/-- A URL parser that accepts everything (stands in for the external url
crate at concrete, well-formed inputs). -/
def parseUrlAny : String → Option Url := fun s => some { raw := s }

/-- A host event map whose `event` sub-object is an object that lacks a
`waitUntil` property. -/
def eventNoWaitUntil : JsValue :=
  JsValue.mapVal
    [("method", JsValue.str "GET"),
     ("url", JsValue.str "https://example.com/"),
     ("headers", JsValue.headersVal []),
     ("event", JsValue.obj [])]

/-! # Theorems -/

/-! ## Unset-flag lemmas -/

/-- No builder call ever sets the unset flag back to true. -/
theorem applyOp_unset_false (r : Response) (op : BuildOp) (h : r.unset = false) :
    (applyOp r op).unset = false := by
  cases op with
  | statusOp s => simp [applyOp, Response.status']
  | bodyOp b => simp [applyOp, Response.body']
  | textOp t => simp [applyOp, Response.text]
  | jsonOp ser =>
    cases ser with
    | none => simpa [applyOp, Response.json] using h
    | some bytes => simp [applyOp, Response.json]
  | headerOp k v ok =>
    cases ok <;> simpa [applyOp, Response.header] using h
  | contentTypeOp v ok =>
    cases ok <;> simpa [applyOp, Response.content_type, Response.header] using h

theorem applyOps_unset_false (ops : List BuildOp) (r : Response) (h : r.unset = false) :
    (applyOps ops r).unset = false := by
  induction ops generalizing r with
  | nil => simpa [applyOps] using h
  | cons op ops ih => exact ih _ (applyOp_unset_false r op h)

/-- A header or content-type call leaves the unset flag exactly as it was. -/
theorem applyOp_headerOnly_unset (r : Response) (op : BuildOp)
    (h : op.isHeaderOnly = true) : (applyOp r op).unset = r.unset := by
  cases op with
  | headerOp k v ok => cases ok <;> simp [applyOp, Response.header]
  | contentTypeOp v ok => cases ok <;> simp [applyOp, Response.content_type, Response.header]
  | statusOp s => simp [BuildOp.isHeaderOnly] at h
  | bodyOp b => simp [BuildOp.isHeaderOnly] at h
  | textOp t => simp [BuildOp.isHeaderOnly] at h
  | jsonOp ser => simp [BuildOp.isHeaderOnly] at h

/-- A status, body, text, or successful json call clears the unset flag. -/
theorem applyOp_setter_unset (r : Response) (op : BuildOp)
    (h : op.isSetter = true) : (applyOp r op).unset = false := by
  cases op with
  | statusOp s => simp [applyOp, Response.status']
  | bodyOp b => simp [applyOp, Response.body']
  | textOp t => simp [applyOp, Response.text]
  | jsonOp ser =>
    cases ser with
    | none => simp [BuildOp.isSetter] at h
    | some bytes => simp [applyOp, Response.json]
  | headerOp k v ok => simp [BuildOp.isSetter] at h
  | contentTypeOp v ok => simp [BuildOp.isSetter] at h

theorem applyOps_headerOnly (ops : List BuildOp) (r : Response)
    (h : ops.all BuildOp.isHeaderOnly = true) : (applyOps ops r).unset = r.unset := by
  induction ops generalizing r with
  | nil => simp [applyOps]
  | cons op ops ih =>
    simp only [List.all_cons, Bool.and_eq_true] at h
    rw [applyOps, ih _ h.2, applyOp_headerOnly_unset r op h.1]

theorem applyOps_any_setter (ops : List BuildOp) (r : Response)
    (h : ops.any BuildOp.isSetter = true) : (applyOps ops r).unset = false := by
  induction ops generalizing r with
  | nil => simp at h
  | cons op ops ih =>
    simp only [List.any_cons, Bool.or_eq_true] at h
    rcases h with h | h
    · exact applyOps_unset_false ops _ (applyOp_setter_unset r op h)
    · exact ih _ h

/-- Claim C5: starting from a fresh default Response, any sequence made only
of header() and content_type() calls leaves is_unset() true; any sequence
containing at least one status(), body(), text(), or successful json() call
leaves is_unset() false. -/
theorem response_unset_monotonicity (ops : List BuildOp) :
    (ops.all BuildOp.isHeaderOnly = true →
      (applyOps ops Response.default).is_unset = true) ∧
    (ops.any BuildOp.isSetter = true →
      (applyOps ops Response.default).is_unset = false) := by
  constructor
  · intro h
    rw [Response.is_unset, applyOps_headerOnly ops _ h]
    rfl
  · intro h
    rw [Response.is_unset, applyOps_any_setter ops _ h]

theorem response_unset_monotonicity_witness :
    ([BuildOp.headerOp "Content-Type" "text/html" true].all BuildOp.isHeaderOnly = true ∧
      (applyOps [BuildOp.headerOp "Content-Type" "text/html" true]
        Response.default).is_unset = true) ∧
    ([BuildOp.statusOp 200].any BuildOp.isSetter = true ∧
      (applyOps [BuildOp.statusOp 200] Response.default).is_unset = false) :=
  ⟨⟨by decide, (response_unset_monotonicity _).1 (by decide)⟩,
   ⟨by decide, (response_unset_monotonicity _).2 (by decide)⟩⟩

/-- Claim C9: the unset flag is a one-shot latch — once is_unset() is false,
no sequence of further builder calls (status, body, text, json, header,
content_type; getters are pure and change nothing) ever makes it true
again.  Contrapositively, a Response with is_unset() true can only have
arisen from a fresh default Response through flag-preserving calls. -/
theorem response_unset_latch (r : Response) (ops : List BuildOp)
    (h : r.is_unset = false) : (applyOps ops r).is_unset = false :=
  applyOps_unset_false ops r h

theorem response_unset_latch_witness :
    ((Response.default.status' 500).is_unset = false) ∧
    ((applyOps [BuildOp.headerOp "x" "y" true, BuildOp.jsonOp none]
        (Response.default.status' 500)).is_unset = false) :=
  ⟨by decide, response_unset_latch _ _ (by decide)⟩

/-! ## Cookie parsing -/

/-- Claim C7: get_cookie_value parses the Cookie header as ';'-separated
k=v pairs with surrounding whitespace trimmed and returns the first exact
name match: "foo=bar" yields Some("bar") for "foo"; "foo=" yields Some("");
"foo=bar ; color=green ; bar=baz" yields the respective value for each of
the three names. -/
theorem cookie_parsing_spec :
    reqCookie1.get_cookie_value "foo" = some "bar" ∧
    reqCookie2.get_cookie_value "foo" = some "" ∧
    reqCookie3.get_cookie_value "foo" = some "bar" ∧
    reqCookie3.get_cookie_value "color" = some "green" ∧
    reqCookie3.get_cookie_value "bar" = some "baz" := by
  refine ⟨?_, ?_, ?_, ?_, ?_⟩ <;> rfl

/-! ## Chain lemmas -/

theorem chainLoop_nil (ieh : Context → Context) (ctx : Context)
    (res : Option HandlerReturn) :
    chainLoop ieh [] ctx res = { ctx := ctx, result := res, invoked := 0, iehCalls := 0 } :=
  rfl

/-- With the internal-error marker set at the top of an iteration, the
internal-error handler runs and the loop breaks. -/
theorem chainLoop_cons_ieh (ieh : Context → Context) (h : Handler)
    (rest : List Handler) (ctx : Context) (res : Option HandlerReturn)
    (h1 : (ctx.internal_error).isSome = true) :
    chainLoop ieh (h :: rest) ctx res =
      { ctx := ieh ctx, result := res, invoked := 0, iehCalls := 1 } := by
  rw [chainLoop]
  simp [Context.is_internal_error, h1]

/-- A handler that answers breaks the loop with its own output. -/
theorem chainLoop_cons_answer (ieh : Context → Context) (h : Handler)
    (rest : List Handler) (ctx : Context)
    (h0 : ctx.internal_error = none) (hans : answers h ctx = true) :
    chainLoop ieh (h :: rest) ctx none =
      { ctx := (h ctx).1, result := (h ctx).2, invoked := 1, iehCalls := 0 } := by
  rw [chainLoop]
  unfold answers at hans
  simp [Context.is_internal_error, h0, hans]

/-- Running the loop over a passing block: every handler of `pre` runs and
declines, and the loop continues into `rest` in the context `pre` built. -/
theorem chainLoop_passes (ieh : Context → Context) (pre rest : List Handler)
    (ctx : Context) (h0 : ctx.internal_error = none) (hp : passesAll pre ctx) :
    chainLoop ieh (pre ++ rest) ctx none =
      { chainLoop ieh rest (applySeq pre ctx) none with
        invoked := (chainLoop ieh rest (applySeq pre ctx) none).invoked + pre.length } := by
  induction pre generalizing ctx with
  | nil => simp [applySeq]
  | cons h pre ih =>
    obtain ⟨hpass, hp'⟩ := hp
    unfold passes at hpass
    simp only [Bool.and_eq_true, Option.isNone_iff_eq_none] at hpass
    obtain ⟨⟨hres, hunset⟩, hie⟩ := hpass
    rw [List.cons_append, chainLoop]
    simp only [Context.is_internal_error, h0, Option.isSome_none, Bool.false_eq_true,
      if_false, hres, Option.isSome_none, hunset, Bool.not_true, Bool.or_self]
    rw [ih (h ctx).1 hie hp']
    simp [applySeq, Nat.add_assoc]

theorem applySeq_internal_none (pre : List Handler) (ctx : Context)
    (h0 : ctx.internal_error = none) (hp : passesAll pre ctx) :
    (applySeq pre ctx).internal_error = none := by
  induction pre generalizing ctx with
  | nil => exact h0
  | cons h pre ih =>
    obtain ⟨hpass, hp'⟩ := hp
    unfold passes at hpass
    simp only [Bool.and_eq_true, Option.isNone_iff_eq_none] at hpass
    exact ih (h ctx).1 hpass.2 hp'

theorem applySeq_unset (pre : List Handler) (ctx : Context)
    (h0 : ctx.response.is_unset = true) (hp : passesAll pre ctx) :
    (applySeq pre ctx).response.is_unset = true := by
  induction pre generalizing ctx with
  | nil => exact h0
  | cons h pre ih =>
    obtain ⟨hpass, hp'⟩ := hp
    unfold passes at hpass
    simp only [Bool.and_eq_true, Option.isNone_iff_eq_none] at hpass
    exact ih (h ctx).1 hpass.1.2 hp'

/-! ## Chain claims -/

/-- Claim C3: for any handler list, when the handlers before `hi` all
decline (no Err, no answer, no internal error raised) and `hi` answers
(returns Err or clears is_unset), the loop stops at `hi`: exactly the
handlers up to and including `hi` were invoked (none with a larger index),
the internal-error handler never ran, and the finalized response is the one
determined by `hi`'s output. -/
theorem chain_first_answer (ieh : Context → Context) (pre post : List Handler)
    (hi : Handler) (ctx0 : Context)
    (h0 : ctx0.internal_error = none)
    (hpre : passesAll pre ctx0)
    (hans : answers hi (applySeq pre ctx0) = true) :
    chainLoop ieh (pre ++ hi :: post) ctx0 none =
      { ctx := (hi (applySeq pre ctx0)).1, result := (hi (applySeq pre ctx0)).2,
        invoked := pre.length + 1, iehCalls := 0 } ∧
    finalizeResponse (chainLoop ieh (pre ++ hi :: post) ctx0 none).ctx
        (chainLoop ieh (pre ++ hi :: post) ctx0 none).result =
      finalizeResponse (hi (applySeq pre ctx0)).1 (hi (applySeq pre ctx0)).2 := by
  have hin := applySeq_internal_none pre ctx0 h0 hpre
  have hc := chainLoop_passes ieh pre (hi :: post) ctx0 h0 hpre
  rw [chainLoop_cons_answer ieh hi post _ hin hans] at hc
  refine ⟨?_, ?_⟩
  · rw [hc]
    simp [Nat.add_comm]
  · rw [hc]

theorem chain_first_answer_witness :
    (Context.default.internal_error = none) ∧
    (answers hText (applySeq [hPass] Context.default) = true) ∧
    chainLoop id ([hPass] ++ hText :: [hErr]) Context.default none =
      { ctx := (hText (applySeq [hPass] Context.default)).1,
        result := (hText (applySeq [hPass] Context.default)).2,
        invoked := 2, iehCalls := 0 } :=
  ⟨rfl, by decide,
    (chain_first_answer id [hPass] [hErr] hText Context.default rfl
      ⟨by decide, trivial⟩ (by decide)).1⟩

/-- Claim C6: when every configured handler returns Ok, leaves the response
unset, and raises no internal error, the finalized response is status 404
with body "Not Found". -/
theorem chain_fallthrough_404 (ieh : Context → Context) (hs : List Handler)
    (hp : passesAll hs Context.default) :
    (finalizeResponse (chainLoop ieh hs Context.default none).ctx
        (chainLoop ieh hs Context.default none).result).response.get_status = 404 ∧
    (finalizeResponse (chainLoop ieh hs Context.default none).ctx
        (chainLoop ieh hs Context.default none).result).response.get_body =
      utf8Bytes "Not Found" := by
  have hc := chainLoop_passes ieh hs [] Context.default rfl hp
  rw [List.append_nil] at hc
  rw [hc]
  have hu := applySeq_unset hs Context.default rfl hp
  simp [chainLoop_nil, finalizeResponse, hu, Response.status', Response.text,
    Response.get_status, Response.get_body]

theorem chain_fallthrough_404_witness :
    passesAll [hPass] Context.default ∧
    (finalizeResponse (chainLoop id [hPass] Context.default none).ctx
        (chainLoop id [hPass] Context.default none).result).response.get_status = 404 ∧
    (finalizeResponse (chainLoop id [hPass] Context.default none).ctx
        (chainLoop id [hPass] Context.default none).result).response.get_body =
      utf8Bytes "Not Found" :=
  ⟨⟨by decide, trivial⟩,
    (chain_fallthrough_404 id [hPass] ⟨by decide, trivial⟩).1,
    (chain_fallthrough_404 id [hPass] ⟨by decide, trivial⟩).2⟩

/-- Claim C4: whenever the chain halts with `Err(hr)`, the finalized
response has status `hr.status` and body equal to the UTF-8 bytes of
`hr.text`, regardless of any mutations the handler made on the response
before returning Err (the overwrite applies to whatever response state the
chain left behind). -/
theorem handler_return_overrides (ieh : Context → Context) (hs : List Handler)
    (ctx0 : Context) (hr : HandlerReturn)
    (h : (chainLoop ieh hs ctx0 none).result = some hr) :
    (finalizeResponse (chainLoop ieh hs ctx0 none).ctx
        (chainLoop ieh hs ctx0 none).result).response.get_status = hr.status ∧
    (finalizeResponse (chainLoop ieh hs ctx0 none).ctx
        (chainLoop ieh hs ctx0 none).result).response.get_body = utf8Bytes hr.text := by
  rw [h]
  simp [finalizeResponse, Response.status', Response.text,
    Response.get_status, Response.get_body]

theorem handler_return_overrides_witness :
    ((chainLoop id [hErr] Context.default none).result =
      some (handler_return 500 "<html>err</html>")) ∧
    (finalizeResponse (chainLoop id [hErr] Context.default none).ctx
        (chainLoop id [hErr] Context.default none).result).response.get_status = 500 ∧
    (finalizeResponse (chainLoop id [hErr] Context.default none).ctx
        (chainLoop id [hErr] Context.default none).result).response.get_body =
      utf8Bytes "<html>err</html>" :=
  ⟨by decide,
    (handler_return_overrides id [hErr] Context.default (handler_return 500 "<html>err</html>") (by decide)).1,
    (handler_return_overrides id [hErr] Context.default (handler_return 500 "<html>err</html>") (by decide)).2⟩

/-- Claim C10: converting the halting `HandlerReturn` mutates only status
and body — the headers the handlers set before the Err are untouched, and
the marshalled host response carries exactly those headers. -/
theorem handler_return_frame_headers (ieh : Context → Context) (hs : List Handler)
    (ctx0 : Context) (hr : HandlerReturn)
    (h : (chainLoop ieh hs ctx0 none).result = some hr) :
    (finalizeResponse (chainLoop ieh hs ctx0 none).ctx
        (chainLoop ieh hs ctx0 none).result).response.headers =
      (chainLoop ieh hs ctx0 none).ctx.response.headers ∧
    (finalizeResponse (chainLoop ieh hs ctx0 none).ctx
        (chainLoop ieh hs ctx0 none).result).response.into_js =
      JsValue.mapVal
        [("status", JsValue.num (Int.ofNat hr.status)),
         ("body", JsValue.bytesVal (utf8Bytes hr.text)),
         ("headers", JsValue.headersVal
            (((chainLoop ieh hs ctx0 none).ctx.response.headers).getD []))] := by
  rw [h]
  simp [finalizeResponse, Response.status', Response.text, Response.into_js]

theorem handler_return_frame_headers_witness :
    ((chainLoop id [hHeaderErr] Context.default none).result =
      some (handler_return 500 "<html>err</html>")) ∧
    ((chainLoop id [hHeaderErr] Context.default none).ctx.response.headers =
      some [("x-id", "7")]) ∧
    (finalizeResponse (chainLoop id [hHeaderErr] Context.default none).ctx
        (chainLoop id [hHeaderErr] Context.default none).result).response.headers =
      (chainLoop id [hHeaderErr] Context.default none).ctx.response.headers :=
  ⟨by decide, by decide,
    (handler_return_frame_headers id [hHeaderErr] Context.default (handler_return 500 "<html>err</html>") (by decide)).1⟩

/-- Counterexample to claim C1 as stated: the internal-error check runs
only at the top of the next loop iteration, so when the raising handler is
the last of the list (first conjunct) or also set the response before
returning Ok (second conjunct, where the loop breaks on the answer), the
configured internal-error handler runs zero times, not once. -/
theorem chain_internal_error_counterexample :
    ((chainLoop (default_internal_error_handler reqCookie1) [hRaise]
        Context.default none).iehCalls = 0) ∧
    ((chainLoop (default_internal_error_handler reqCookie1) [hRaiseAnswer, hPass]
        Context.default none).iehCalls = 0) :=
  ⟨rfl, rfl⟩

/-- Claim C1 as amended: if handler `hi` raises the internal-error marker
during its invocation (earlier handlers all declined), returns Ok and
leaves the response unset, then — provided `hi` is not the last handler —
no handler with index > i runs and the internal-error handler runs exactly
once before finalization; when `hi` is the last handler the loop simply
ends and the internal-error handler never runs. -/
theorem chain_internal_error_diversion (ieh : Context → Context)
    (pre post : List Handler) (hi : Handler) (ctx0 : Context)
    (h0 : ctx0.internal_error = none)
    (hpre : passesAll pre ctx0)
    (hok : (hi (applySeq pre ctx0)).2 = none)
    (hunset : (hi (applySeq pre ctx0)).1.response.is_unset = true)
    (hraise : ((hi (applySeq pre ctx0)).1.internal_error).isSome = true) :
    (post ≠ [] →
      chainLoop ieh (pre ++ hi :: post) ctx0 none =
        { ctx := ieh (hi (applySeq pre ctx0)).1, result := none,
          invoked := pre.length + 1, iehCalls := 1 }) ∧
    (post = [] →
      chainLoop ieh (pre ++ hi :: post) ctx0 none =
        { ctx := (hi (applySeq pre ctx0)).1, result := none,
          invoked := pre.length + 1, iehCalls := 0 }) := by
  have hin := applySeq_internal_none pre ctx0 h0 hpre
  have hc := chainLoop_passes ieh pre (hi :: post) ctx0 h0 hpre
  have hstep : chainLoop ieh (hi :: post) (applySeq pre ctx0) none =
      { chainLoop ieh post (hi (applySeq pre ctx0)).1 none with
        invoked := (chainLoop ieh post (hi (applySeq pre ctx0)).1 none).invoked + 1 } := by
    rw [chainLoop]
    simp only [Context.is_internal_error, hin, Option.isSome_none, Bool.false_eq_true,
      if_false, hok, hunset, Bool.not_true, Bool.or_self]
  refine ⟨?_, ?_⟩
  · intro hpost
    obtain ⟨p, post', rfl⟩ : ∃ p post', post = p :: post' := by
      cases post with
      | nil => exact absurd rfl hpost
      | cons p post' => exact ⟨p, post', rfl⟩
    rw [hc, hstep, chainLoop_cons_ieh ieh p post' _ none hraise]
    simp [Nat.add_comm]
  · intro hpost
    subst hpost
    rw [hc, hstep, chainLoop_nil]
    simp [Nat.add_comm]

theorem chain_internal_error_diversion_witness :
    ((hRaise (applySeq [] Context.default)).2 = none) ∧
    ((hRaise (applySeq [] Context.default)).1.response.is_unset = true) ∧
    (((hRaise (applySeq [] Context.default)).1.internal_error).isSome = true) ∧
    chainLoop id ([] ++ hRaise :: [hText]) Context.default none =
      { ctx := id (hRaise (applySeq [] Context.default)).1, result := none,
        invoked := 1, iehCalls := 1 } :=
  ⟨by decide, by decide, by decide,
    (chain_internal_error_diversion id [] [hText] hRaise Context.default rfl trivial
      (by decide) (by decide) (by decide)).1 (by simp)⟩

/-! ## Deferred runner ordering -/

/-- Closed form of the task loop: the event trace lists the tasks in order
starting at the given index, and the shared queue ends as the starting
queue followed by every task's logs in task order. -/
theorem runTasks_spec (tasks : List Task) (idx : Nat) (queue : List LogEntry) :
    runTasks tasks idx queue =
      ((List.range' idx tasks.length).map Event.runTask,
        queue ++ allTaskLogs tasks) := by
  induction tasks generalizing idx queue with
  | nil => simp [runTasks, allTaskLogs]
  | cons t rest ih =>
    rw [runTasks, ih]
    simp [allTaskLogs, List.range', List.append_assoc]

/-- Claim C8: within one invocation's deferred runner, the trace is exactly
the "http" flush of the handler-time logs, then the deferred tasks strictly
in append order, then the "http" flush of the fresh shared queue (which
holds precisely what the tasks logged) — so the initial flush strictly
precedes the first task and the post-task flush strictly follows the last
task's completion. -/
theorem deferred_ordering (logger : String → List LogEntry → Bool)
    (args : DeferredData) :
    deferred_promise logger args =
      sendEvents (logger "http" args.logs) "http" args.logs
        ++ ((List.range args.tasks.length).map Event.runTask)
        ++ sendEvents (logger "http" (allTaskLogs args.tasks)) "http"
            (allTaskLogs args.tasks) := by
  rw [deferred_promise, runTasks_spec, List.range_eq_range']
  simp

/-! ## Missing waitUntil (claim C2) -/

/-- Claim C2, evaluated at the failing input: a host event whose `event`
sub-object lacks a `waitUntil` property.  `Reflect::get` yields Ok(undefined) for a
missing property of an object (it only throws when the target is not an
object), so the `map_err(|_| "event without waitUntil")` never fires; the
unchecked `Function::from(undefined)` value is only used in the ignored
`wait_func.call1` result, and the invocation returns the normal marshalled
404 response instead of the host-level error the spec prescribes. -/
theorem service_request_event_without_waituntil :
    service_request parseUrlAny eventNoWaitUntil ServiceConfig.default =
      Except.ok (JsValue.mapVal
        [("status", JsValue.num 404),
         ("body", JsValue.bytesVal (utf8Bytes "Not Found")),
         ("headers", JsValue.headersVal [])]) :=
  rfl

end WasmService
